import Mathlib

/-!
Verification of the process/window lifecycle coordinator of a desktop
web-app wrapper.  The embedded operations come from `src-tauri/src/lib.rs`
(window-state restore/capture, sibling-process enumeration, single-instance
enforcement) and `src-tauri/src/config.rs` (the persisted `WindowState`
record and its JSON load/save).
-/

namespace Wrapper

/-- Persisted window geometry (`config.rs`, `struct WindowState`):
`x,y : i32`, `width,height : u32`, `maximized : bool`.  Machine integers are
embedded as `Int`/`Nat`; the `i32`/`u32` ranges appear as side conditions
where they matter. -/
structure WindowState where
  x : Int
  y : Int
  width : Nat
  height : Nat
  maximized : Bool
deriving DecidableEq, Repr

/-- The window handle as the coordinator observes it.  Each query mirrors a
fallible Tauri call (`is_minimized`, `is_maximized`, `outer_position`,
`outer_size`): `none` models the `Err` case. -/
structure Window where
  isMinimized : Option Bool
  isMaximized : Option Bool
  outerPosition : Option (Int × Int)
  outerSize : Option (Nat × Nat)
deriving DecidableEq, Repr

/-- One mutating call issued to the live window by `restore_window_state`. -/
inductive WinOp where
  | setSize (width height : Nat)
  | setPos (x y : Int)
  | maximize
deriving DecidableEq, Repr

/-- `restore_window_state` (`lib.rs:108-132`) as the trace of window calls it
issues, given the result of `WindowState::load()` and the cascade offset.
With a saved state: size is applied only when both dimensions are at least
200, position is always applied with the offset added to both axes, and a
saved maximized flag maximizes last.  With no saved state and a positive
offset, the current outer position (when readable) is re-applied offset on
both axes. -/
def restore_window_state (window : Window) (loaded : Option WindowState)
    (cascade_offset : Int) : List WinOp :=
  match loaded with
  | some state =>
      (if 200 ≤ state.width ∧ 200 ≤ state.height then
          [WinOp.setSize state.width state.height]
        else [])
        ++ [WinOp.setPos (state.x + cascade_offset) (state.y + cascade_offset)]
        ++ (if state.maximized then [WinOp.maximize] else [])
  | none =>
      if 0 < cascade_offset then
        match window.outerPosition with
        | some pos => [WinOp.setPos (pos.1 + cascade_offset) (pos.2 + cascade_offset)]
        | none => []
      else []

/-- `save_window_state` (`lib.rs:135-177`) as the record this invocation
writes to disk, or `none` when it writes nothing.  `loaded` is the result of
the `WindowState::load()` call made in the maximized branch.  Failed window
queries fall back exactly as the source's `unwrap_or` / `unwrap_or_default`
do: minimized/maximized default to `false`, position/size to zeros. -/
def save_window_state (window : Window) (loaded : Option WindowState) :
    Option WindowState :=
  if window.isMinimized.getD false then
    none
  else if window.isMaximized.getD false then
    match loaded with
    | some state => some { state with maximized := true }
    | none =>
        let pos := window.outerPosition.getD (0, 0)
        let size := window.outerSize.getD (0, 0)
        some { x := pos.1, y := pos.2, width := size.1, height := size.2,
               maximized := true }
  else
    let pos := window.outerPosition.getD (0, 0)
    let size := window.outerSize.getD (0, 0)
    some { x := pos.1, y := pos.2, width := size.1, height := size.2,
           maximized := false }

/-- The store contents after one move/resize event: the freshly written
record if the event wrote one, otherwise the previous contents. -/
def applyEvent (stored : Option WindowState) (window : Window) :
    Option WindowState :=
  match save_window_state window stored with
  | some state => some state
  | none => stored

/-- Fold a sequence of move/resize events through the geometry store. -/
def runSaves (events : List Window) (init : Option WindowState) :
    Option WindowState :=
  events.foldl applyEvent init

/-- The outer rectangle a window reports (with the source's zero defaults). -/
def windowRect (window : Window) : Int × Int × Nat × Nat :=
  let pos := window.outerPosition.getD (0, 0)
  let size := window.outerSize.getD (0, 0)
  (pos.1, pos.2, size.1, size.2)

/-- The rectangle stored in a geometry record. -/
def rectOf (state : WindowState) : Int × Int × Nat × Nat :=
  (state.x, state.y, state.width, state.height)

/-- A move/resize event during which the window was in the normal state
(neither minimized nor maximized). -/
def isNormalEvent (window : Window) : Bool :=
  !(window.isMinimized.getD false) && !(window.isMaximized.getD false)

/-- The outer rectangles observed at normal (non-minimized, non-maximized)
events of a trace. -/
def normalRects (events : List Window) : List (Int × Int × Nat × Nat) :=
  (events.filter isNormalEvent).map windowRect

/-! ## Process enumeration and single-instance enforcement (`lib.rs`) -/

/-- One entry of the OS process snapshot: a pid and the executable file
name decoded from `szExeFile`. -/
structure ProcEntry where
  pid : Nat
  exeName : String
deriving DecidableEq, Repr

/-- The OS-level inputs both snapshot loops consume: the current pid, the
current executable's file name (`none` when `current_exe()` or `file_name()`
fails), and the `CreateToolhelp32Snapshot` result (`none` on failure). -/
structure SysEnv where
  ourPid : Nat
  selfExeName : Option String
  snapshot : Option (List ProcEntry)
deriving Repr

/-- `str::to_lowercase`, embedded as a per-character map (the executable
names the snapshot loop compares are ASCII file names). -/
def lowerStr (s : String) : String :=
  String.mk (s.data.map Char.toLower)

/-- The lowercased self executable name, `""` when unavailable — exactly the
source's `current_exe().ok().and_then(file_name -> to_lowercase)
.unwrap_or_default()`. -/
def our_exe (env : SysEnv) : String :=
  (env.selfExeName.map lowerStr).getD ""

/-- The snapshot loop shared verbatim by `count_sibling_instances`
(`lib.rs:199-234`) and `enforce_single_instance` (`lib.rs:318-357`): walk
the process snapshot collecting pids whose lowercased executable name equals
`our_exe`, excluding our own pid; empty when the self name is unavailable or
the snapshot fails. -/
def sibling_pids (env : SysEnv) : List Nat :=
  if our_exe env = "" then []
  else
    match env.snapshot with
    | none => []
    | some entries =>
        (entries.filter fun e =>
            lowerStr e.exeName == our_exe env && e.pid != env.ourPid).map
          ProcEntry.pid

/-- `count_sibling_instances` (`lib.rs:181-235`): the number of matching
snapshot entries. -/
def count_sibling_instances (env : SysEnv) : Nat :=
  (sibling_pids env).length

/-- A top-level window as `EnumWindows` reports it: owning pid, title-text
length, and the `WS_VISIBLE` / `WS_MINIMIZE` style bits. -/
structure TopWindow where
  owner : Nat
  titleLen : Nat
  visible : Bool
  minimized : Bool
deriving DecidableEq, Repr

/-- A `ShowWindow`/`SetForegroundWindow` call issued by the activator. -/
inductive ActivateAction where
  | restore
  | show
  | foreground
deriving DecidableEq, Repr

/-- The enumeration callback of `activate_process_windows`
(`lib.rs:259-273`): the first window (in enumeration order) owned by one of
the target pids and having nonempty title text. -/
def find_target (windows : List TopWindow) (pids : List Nat) :
    Option TopWindow :=
  windows.find? fun w => pids.contains w.owner && 0 < w.titleLen

/-- `activate_process_windows` (`lib.rs:246-296`) as the trace of window
calls it issues: nothing when no candidate window is found; otherwise a
restore (if minimized) or a show (if not visible), then a foreground
request. -/
def activate_process_windows (windows : List TopWindow) (pids : List Nat) :
    List ActivateAction :=
  match find_target windows pids with
  | none => []
  | some w =>
      (if w.minimized then [ActivateAction.restore]
       else if !w.visible then [ActivateAction.show]
       else [])
        ++ [ActivateAction.foreground]

/-- The externally observable outcome of `enforce_single_instance`:
pid lists passed to `activate_process_windows` (one entry per call), the
activation trace, the exit code when `std::process::exit` is reached,
termination attempts as `(pid, OpenProcess succeeded)` pairs, and the
requested sleep in milliseconds. -/
structure EnforceResult where
  activations : List (List Nat) := []
  activationActions : List ActivateAction := []
  exitCode : Option Nat := none
  terminations : List (Nat × Bool) := []
  sleptMs : Nat := 0
deriving DecidableEq, Repr

/-- `enforce_single_instance` (`lib.rs:302-384`).  `openOk pid` models
whether `OpenProcess(PROCESS_TERMINATE, false, pid)` succeeds for that pid;
a failure is skipped and the loop continues (`lib.rs:371-378`).  `windows`
is the top-level window list the activator would enumerate.  With no
siblings (including self-name or snapshot failure) the function returns
without acting; mode `"first"` activates once and exits 0; mode `"last"`
attempts one termination per sibling pid then sleeps 200 ms; any other mode
string does nothing. -/
def enforce_single_instance (env : SysEnv) (openOk : Nat → Bool)
    (windows : List TopWindow) (mode : String) : EnforceResult :=
  let found_pids := sibling_pids env
  if found_pids.isEmpty then {}
  else
    match mode with
    | "first" =>
        { activations := [found_pids],
          activationActions := activate_process_windows windows found_pids,
          exitCode := some 0 }
    | "last" =>
        { terminations := found_pids.map fun p => (p, openOk p),
          sleptMs := 200 }
    | _ => {}

/-- Non-Windows build of `count_sibling_instances` (`lib.rs:237-240`). -/
def count_sibling_instances_nonwindows : Nat := 0

/-- Non-Windows build of `enforce_single_instance` (`lib.rs:386-389`): a
no-op for every mode string. -/
def enforce_single_instance_nonwindows (_mode : String) : EnforceResult := {}

/-- Modelled from the spec: `AppConfig::instance_mode` is not present in the
provided sources (only its call sites in `run`, `lib.rs:22` and `lib.rs:28`,
are).  Per the spec, the configured instance-policy string is recognized
case-insensitively: `"first"` and `"last"` select single-instance
enforcement, and any other value (absent modelled as `""`) selects
multi-instance mode. -/
def instance_mode (raw : String) : Option String :=
  if lowerStr raw = "first" then some "first"
  else if lowerStr raw = "last" then some "last"
  else none

/-- The startup decisions of `run` (`lib.rs:22-51`) that the claims are
about. -/
structure RunOutcome where
  enforcement : EnforceResult
  windowCreated : Bool
  cascadeOffset : Int
deriving DecidableEq, Repr

/-- The startup sequence of `run` (`lib.rs:22-51`): enforce the configured
instance policy when one is configured (a `some 0` exit code means the
process terminated there and no window is created), then compute the cascade
offset — `32 × sibling count` in multi-instance mode, `0` otherwise. -/
def run_model (env : SysEnv) (openOk : Nat → Bool)
    (windows : List TopWindow) (rawPolicy : String) : RunOutcome :=
  let enforcement :=
    match instance_mode rawPolicy with
    | some mode => enforce_single_instance env openOk windows mode
    | none => {}
  let offset : Int :=
    if (instance_mode rawPolicy).isNone then
      (count_sibling_instances env : Int) * 32
    else 0
  { enforcement := enforcement,
    windowCreated := enforcement.exitCode.isNone,
    cascadeOffset := offset }

/-- Non-Windows cascade offset: `run` with the non-Windows
`count_sibling_instances`. -/
def cascade_offset_nonwindows (rawPolicy : String) : Int :=
  if (instance_mode rawPolicy).isNone then
    (count_sibling_instances_nonwindows : Int) * 32
  else 0

/-! ## JSON text layer (serde_json as used by `config.rs`)

`WindowState::load` reads the state file as text and runs
`serde_json::from_str`; `WindowState::save` writes
`serde_json::to_string_pretty`.  The parser below follows serde_json's
grammar (strict numbers, string escapes, no trailing commas, whole-input
consumption); the value AST keeps integer-token numbers exactly and marks
fraction/exponent numbers as `float`, since deserializing an `i32`/`u32`
field from a float token is a serde_json type error. -/

/-- A JSON value.  `int` holds numbers written as integer tokens; `float`
marks numbers with a fraction or exponent part (their value is irrelevant:
every struct field of `WindowState` rejects them). -/
inductive Json where
  | null
  | bool (b : Bool)
  | int (n : Int)
  | float
  | str (s : String)
  | arr (elems : List Json)
  | obj (fields : List (String × Json))

/-- JSON whitespace. -/
def isWs (c : Char) : Bool :=
  c = ' ' || c = '\n' || c = '\t' || c = '\r'

/-- Drop leading JSON whitespace. -/
def skipWs : List Char → List Char
  | [] => []
  | c :: cs => if isWs c then skipWs cs else c :: cs

/-- Numeric value of a decimal digit character. -/
def digitVal (c : Char) : Nat := c.toNat - 48

/-- Decimal value of a big-endian digit string. -/
def digitsToNat (ds : List Char) : Nat :=
  ds.foldl (fun a c => 10 * a + digitVal c) 0

/-- Parse the integer part of a JSON number: a single `0`, or a nonzero
digit followed by digits (serde_json rejects leading zeros). -/
def parseIntPart : List Char → Option (Nat × List Char)
  | [] => none
  | c :: rest =>
      if c = '0' then some (0, rest)
      else if c.isDigit then
        some (digitsToNat (c :: rest.takeWhile Char.isDigit),
          rest.dropWhile Char.isDigit)
      else none

/-- Parse an optional fraction part; `true` when one was present.  A `.`
not followed by a digit is a syntax error. -/
def parseFracPart : List Char → Option (Bool × List Char)
  | [] => some (false, [])
  | c :: rest =>
      if c = '.' then
        if (rest.takeWhile Char.isDigit).isEmpty then none
        else some (true, rest.dropWhile Char.isDigit)
      else some (false, c :: rest)

/-- Parse an optional exponent part; `true` when one was present. -/
def parseExpPart : List Char → Option (Bool × List Char)
  | [] => some (false, [])
  | c :: rest =>
      if c = 'e' ∨ c = 'E' then
        let rest1 :=
          match rest with
          | s :: r => if s = '+' ∨ s = '-' then r else s :: r
          | [] => []
        if (rest1.takeWhile Char.isDigit).isEmpty then none
        else some (true, rest1.dropWhile Char.isDigit)
      else some (false, c :: rest)

/-- Parse the digits and fraction/exponent of a JSON number after an
optional leading minus, already split off as `neg`. -/
def parseNumBody (neg : Bool) (cs : List Char) : Option (Json × List Char) :=
  match parseIntPart cs with
  | none => none
  | some (n, rest1) =>
      match parseFracPart rest1 with
      | none => none
      | some (sawFrac, rest2) =>
          match parseExpPart rest2 with
          | none => none
          | some (sawExp, rest3) =>
              if sawFrac || sawExp then some (Json.float, rest3)
              else
                some (Json.int (if neg then -(n : Int) else (n : Int)), rest3)

/-- Parse a JSON number token.  Integer tokens keep their value; a token
with a fraction or exponent becomes `Json.float`. -/
def parseNumber : List Char → Option (Json × List Char)
  | [] => none
  | c :: rest =>
      if c = '-' then parseNumBody true rest
      else parseNumBody false (c :: rest)

/-- Hex digit value. -/
def hexVal (c : Char) : Option Nat :=
  if '0' ≤ c ∧ c ≤ '9' then some (c.toNat - 48)
  else if 'a' ≤ c ∧ c ≤ 'f' then some (c.toNat - 87)
  else if 'A' ≤ c ∧ c ≤ 'F' then some (c.toNat - 55)
  else none

/-- Parse the body of a JSON string literal after the opening quote,
handling the escape sequences of the JSON grammar; raw control characters
are a syntax error. -/
def parseStrBody (acc : List Char) : List Char → Option (String × List Char)
  | [] => none
  | c :: rest =>
      if c = '"' then some (String.mk acc.reverse, rest)
      else if c = '\\' then
        match rest with
        | [] => none
        | e :: rest2 =>
            if e = '"' then parseStrBody ('"' :: acc) rest2
            else if e = '\\' then parseStrBody ('\\' :: acc) rest2
            else if e = '/' then parseStrBody ('/' :: acc) rest2
            else if e = 'b' then parseStrBody (Char.ofNat 8 :: acc) rest2
            else if e = 'f' then parseStrBody (Char.ofNat 12 :: acc) rest2
            else if e = 'n' then parseStrBody ('\n' :: acc) rest2
            else if e = 'r' then parseStrBody ('\r' :: acc) rest2
            else if e = 't' then parseStrBody ('\t' :: acc) rest2
            else if e = 'u' then
              match rest2 with
              | h1 :: h2 :: h3 :: h4 :: rest3 =>
                  match hexVal h1, hexVal h2, hexVal h3, hexVal h4 with
                  | some a, some b, some hc, some d =>
                      parseStrBody
                        (Char.ofNat (((a * 16 + b) * 16 + hc) * 16 + d) :: acc)
                        rest3
                  | _, _, _, _ => none
              | _ => none
            else none
      else if c.toNat < 32 then none
      else parseStrBody (c :: acc) rest

mutual

/-- Parse one JSON value.  The fuel argument only bounds nesting of the
mutual recursion; the top-level entry point supplies `input length + 1`,
which cannot run out because every recursive call first consumes at least
one character. -/
def parseValue : Nat → List Char → Option (Json × List Char)
  | 0, _ => none
  | fuel + 1, cs =>
      match skipWs cs with
      | [] => none
      | c :: rest =>
          if c = '\x7b' then
            match parseMembers fuel (skipWs rest) [] with
            | some (fields, rest3) => some (Json.obj fields, rest3)
            | none => none
          else if c = '[' then
            match parseElems fuel (skipWs rest) [] with
            | some (elems, rest3) => some (Json.arr elems, rest3)
            | none => none
          else if c = '"' then
            match parseStrBody [] rest with
            | some (s, rest2) => some (Json.str s, rest2)
            | none => none
          else if c = 't' then
            match rest with
            | 'r' :: 'u' :: 'e' :: rest2 => some (Json.bool true, rest2)
            | _ => none
          else if c = 'f' then
            match rest with
            | 'a' :: 'l' :: 's' :: 'e' :: rest2 => some (Json.bool false, rest2)
            | _ => none
          else if c = 'n' then
            match rest with
            | 'u' :: 'l' :: 'l' :: rest2 => some (Json.null, rest2)
            | _ => none
          else parseNumber (c :: rest)

/-- Parse the member list of a JSON object, the opening brace and leading
whitespace already consumed.  A closing brace is only valid before the first
member (the empty object); after a comma a key must follow (no trailing
commas). -/
def parseMembers : Nat → List Char → List (String × Json) →
    Option (List (String × Json) × List Char)
  | 0, _, _ => none
  | fuel + 1, cs, acc =>
      match cs with
      | '\x7d' :: rest2 => if acc.isEmpty then some ([], rest2) else none
      | '"' :: rest =>
          match parseStrBody [] rest with
          | none => none
          | some (key, rest1) =>
              match skipWs rest1 with
              | ':' :: rest2 =>
                  match parseValue fuel rest2 with
                  | none => none
                  | some (v, rest3) =>
                      match skipWs rest3 with
                      | ',' :: rest4 =>
                          parseMembers fuel (skipWs rest4) ((key, v) :: acc)
                      | '\x7d' :: rest4 =>
                          some (((key, v) :: acc).reverse, rest4)
                      | _ => none
              | _ => none
      | _ => none

/-- Parse the element list of a JSON array, the opening bracket and leading
whitespace already consumed.  A closing bracket is only valid before the
first element (the empty array); no trailing commas. -/
def parseElems : Nat → List Char → List Json →
    Option (List Json × List Char)
  | 0, _, _ => none
  | _fuel + 1, ']' :: rest2, acc => if acc.isEmpty then some ([], rest2) else none
  | fuel + 1, cs, acc =>
      match parseValue fuel cs with
      | none => none
      | some (v, rest) =>
          match skipWs rest with
          | ',' :: rest2 => parseElems fuel (skipWs rest2) (v :: acc)
          | ']' :: rest2 => some ((v :: acc).reverse, rest2)
          | _ => none

end

/-- `serde_json::from_str` on a whole document: one value, then nothing but
trailing whitespace. -/
def parseJson (s : String) : Option Json :=
  match parseValue (s.length + 1) s.data with
  | some (v, rest) => if (skipWs rest).isEmpty then some v else none
  | none => none

/-! ## Deserializing `WindowState` (derived `serde::Deserialize`) -/

/-- Field accumulator of the derived `Deserialize` visitor. -/
structure PartialState where
  x? : Option Int := none
  y? : Option Int := none
  width? : Option Nat := none
  height? : Option Nat := none
  maximized? : Option Bool := none
deriving DecidableEq, Repr

/-- serde_json deserialization of an `i32` field: an integer token within
the `i32` range; anything else (float, string, bool, null, out of range) is
a type error. -/
def decodeI32 : Json → Option Int
  | Json.int n => if -(2 ^ 31) ≤ n ∧ n < 2 ^ 31 then some n else none
  | _ => none

/-- serde_json deserialization of a `u32` field. -/
def decodeU32 : Json → Option Nat
  | Json.int n => if 0 ≤ n ∧ n < 2 ^ 32 then some n.toNat else none
  | _ => none

/-- serde_json deserialization of a `bool` field. -/
def decodeBool : Json → Option Bool
  | Json.bool b => some b
  | _ => none

/-- The field loop of the derived `Deserialize` impl for `WindowState`:
a known key already seen is a duplicate-field error; an unknown key is
skipped (serde's default, no `deny_unknown_fields` on the struct); a known
key's value must deserialize at its field type. -/
def decodeFields : List (String × Json) → PartialState → Option PartialState
  | [], acc => some acc
  | (key, v) :: rest, acc =>
      if key = "x" then
        match acc.x?, decodeI32 v with
        | none, some n => decodeFields rest { acc with x? := some n }
        | _, _ => none
      else if key = "y" then
        match acc.y?, decodeI32 v with
        | none, some n => decodeFields rest { acc with y? := some n }
        | _, _ => none
      else if key = "width" then
        match acc.width?, decodeU32 v with
        | none, some n => decodeFields rest { acc with width? := some n }
        | _, _ => none
      else if key = "height" then
        match acc.height?, decodeU32 v with
        | none, some n => decodeFields rest { acc with height? := some n }
        | _, _ => none
      else if key = "maximized" then
        match acc.maximized?, decodeBool v with
        | none, some b => decodeFields rest { acc with maximized? := some b }
        | _, _ => none
      else decodeFields rest acc

/-- Deserialize a `WindowState` from a JSON value: must be an object, every
field must be present exactly once at the right type (missing fields are an
error; unknown fields are ignored). -/
def WindowState.ofJson : Json → Option WindowState
  | Json.obj fields =>
      match decodeFields fields {} with
      | some p =>
          match p.x?, p.y?, p.width?, p.height?, p.maximized? with
          | some x, some y, some w, some h, some m => some ⟨x, y, w, h, m⟩
          | _, _, _, _, _ => none
      | none => none
  | _ => none

/-- `serde_json::from_str::<WindowState>`. -/
def parseWindowState (s : String) : Option WindowState :=
  (parseJson s).bind WindowState.ofJson

/-! ## Serializing `WindowState` (`serde_json::to_string_pretty`) -/

/-- Big-endian decimal digits of a positive number, most significant first;
the fuel argument (any value at least `n`) only drives the recursion. -/
def natCharsAux : Nat → Nat → List Char
  | 0, _ => []
  | fuel + 1, n =>
      if n = 0 then []
      else natCharsAux fuel (n / 10) ++ [Nat.digitChar (n % 10)]

/-- Canonical decimal digits of a natural number. -/
def natChars (n : Nat) : List Char :=
  if n = 0 then ['0'] else natCharsAux n n

/-- Canonical decimal rendering of an integer. -/
def intChars (n : Int) : List Char :=
  if n < 0 then '-' :: natChars n.natAbs else natChars n.toNat

/-- `serde_json::to_string_pretty` of a `WindowState`: fields in declaration
order, two-space indentation. -/
def WindowState.toPrettyJson (state : WindowState) : String :=
  String.mk ("\x7b\n  \"x\": ".data ++ intChars state.x
    ++ ",\n  \"y\": ".data ++ intChars state.y
    ++ ",\n  \"width\": ".data ++ natChars state.width
    ++ ",\n  \"height\": ".data ++ natChars state.height
    ++ ",\n  \"maximized\": ".data
    ++ (if state.maximized then "true".data else "false".data)
    ++ "\n\x7d".data)

/-! ## Geometry store (`WindowState::load` / `WindowState::save`) -/

/-- What the filesystem offers when `WindowState::load` runs:
`noPath` models `window_state_path()` returning `None`, `readFailure` a
missing or unreadable file, `content s` a successful read. -/
inductive FileOutcome where
  | noPath
  | readFailure
  | content (s : String)
deriving DecidableEq, Repr

/-- `WindowState::load` (`config.rs:138-142`): every failure — no path, an
unreadable file, malformed content — folds into `none`. -/
def WindowState.load : FileOutcome → Option WindowState
  | FileOutcome.noPath => none
  | FileOutcome.readFailure => none
  | FileOutcome.content s => parseWindowState s

/-- `save(g)` immediately followed by `load()` (`config.rs:144-150` then
`config.rs:138-142`), assuming the path resolves and the write and read
succeed: the loaded value is the parse of the pretty-printed payload. -/
def save_then_load (state : WindowState) : Option WindowState :=
  WindowState.load (FileOutcome.content state.toPrettyJson)

/-- The field names of `WindowState`. -/
def knownKeys : List String := ["x", "y", "width", "height", "maximized"]

/-- The next character cannot extend a number token. -/
def numBoundary : List Char → Prop
  | [] => True
  | c :: _ => c.isDigit = false ∧ c ≠ '.' ∧ c ≠ 'e' ∧ c ≠ 'E'

/-- A character that a JSON string key can contain verbatim. -/
def plainChar (c : Char) : Prop :=
  c ≠ '"' ∧ c ≠ '\\' ∧ ¬ c.toNat < 32

/-! ## Helper lemmas -/

lemma ne_of_isDigit {c : Char} (h : c.isDigit = true) {d : Char}
    (hd : d.isDigit = false) : c ≠ d := by
  intro e
  subst e
  rw [h] at hd
  cases hd

lemma isWs_false_of_isDigit {c : Char} (h : c.isDigit = true) :
    isWs c = false := by
  unfold isWs
  simp only [Bool.or_eq_false_iff, decide_eq_false_iff_not]
  refine ⟨⟨⟨?_, ?_⟩, ?_⟩, ?_⟩ <;> exact ne_of_isDigit h (by decide)

lemma digitChar_facts (d : Nat) (hd : d < 10) :
    (Nat.digitChar d).isDigit = true ∧ digitVal (Nat.digitChar d) = d ∧
    (Nat.digitChar d = '0' ↔ d = 0) := by
  interval_cases d <;> refine ⟨by decide, by decide, by decide⟩

lemma takeWhile_append_all (p : Char → Bool) (l1 l2 : List Char)
    (h1 : ∀ c ∈ l1, p c = true) :
    (l1 ++ l2).takeWhile p = l1 ++ l2.takeWhile p ∧
    (l1 ++ l2).dropWhile p = l2.dropWhile p := by
  induction l1 with
  | nil => simp
  | cons c cs ih =>
      have hc : p c = true := h1 c (by simp)
      have ihs := ih (fun d hd => h1 d (by simp [hd]))
      simp [List.takeWhile_cons, List.dropWhile_cons, hc, ihs.1, ihs.2]

lemma digitsToNat_append_one (l : List Char) (c : Char) :
    digitsToNat (l ++ [c]) = 10 * digitsToNat l + digitVal c := by
  simp [digitsToNat, List.foldl_append]

lemma natCharsAux_all_digit :
    ∀ (fuel n : Nat), ∀ c ∈ natCharsAux fuel n, c.isDigit = true := by
  intro fuel
  induction fuel with
  | zero => intro n c hc; simp [natCharsAux] at hc
  | succ f ih =>
      intro n c hc
      by_cases h0 : n = 0
      · simp [natCharsAux, h0] at hc
      · rw [natCharsAux, if_neg h0] at hc
        rcases List.mem_append.mp hc with h | h
        · exact ih _ c h
        · have : c = Nat.digitChar (n % 10) := by simpa using h
          subst this
          exact (digitChar_facts _ (Nat.mod_lt _ (by norm_num))).1

lemma natCharsAux_val :
    ∀ (fuel n : Nat), n ≤ fuel → digitsToNat (natCharsAux fuel n) = n := by
  intro fuel
  induction fuel with
  | zero =>
      intro n hn
      interval_cases n
      simp [natCharsAux, digitsToNat]
  | succ f ih =>
      intro n hn
      by_cases h0 : n = 0
      · simp [natCharsAux, h0, digitsToNat]
      · rw [natCharsAux, if_neg h0, digitsToNat_append_one]
        have hdiv : n / 10 ≤ f := by
          have : n / 10 < n := Nat.div_lt_self (Nat.pos_of_ne_zero h0) (by norm_num)
          omega
        rw [ih _ hdiv]
        have := (digitChar_facts (n % 10) (Nat.mod_lt _ (by norm_num))).2.1
        rw [this]
        omega

lemma natCharsAux_head :
    ∀ (fuel n : Nat), 0 < n → n ≤ fuel →
      ∃ c l, natCharsAux fuel n = c :: l ∧ c.isDigit = true ∧ c ≠ '0' := by
  intro fuel
  induction fuel with
  | zero => intro n hn h; omega
  | succ f ih =>
      intro n hn hle
      rw [natCharsAux, if_neg (Nat.pos_iff_ne_zero.mp hn)]
      by_cases hq : n / 10 = 0
      · have hmod : n % 10 = n := by omega
        refine ⟨Nat.digitChar (n % 10), [], ?_, ?_, ?_⟩
        · simp [natCharsAux, hq]
          cases f <;> simp [natCharsAux]
        · exact (digitChar_facts _ (Nat.mod_lt _ (by norm_num))).1
        · intro hzero
          have := (digitChar_facts (n % 10) (Nat.mod_lt _ (by norm_num))).2.2.mp hzero
          omega
      · have hdiv : n / 10 ≤ f := by
          have : n / 10 < n := Nat.div_lt_self hn (by norm_num)
          omega
        obtain ⟨c, l, hcl, hdig, hne⟩ := ih (n / 10) (Nat.pos_of_ne_zero hq) hdiv
        exact ⟨c, l ++ [Nat.digitChar (n % 10)], by rw [hcl]; simp, hdig, hne⟩

lemma natChars_all_digit (n : Nat) : ∀ c ∈ natChars n, c.isDigit = true := by
  unfold natChars
  by_cases h0 : n = 0
  · simp [h0]
  · rw [if_neg h0]
    exact natCharsAux_all_digit n n

lemma natChars_val (n : Nat) : digitsToNat (natChars n) = n := by
  unfold natChars
  by_cases h0 : n = 0
  · simp [h0, digitsToNat, digitVal]
  · rw [if_neg h0]
    exact natCharsAux_val n n le_rfl

lemma natChars_head (n : Nat) :
    ∃ c l, natChars n = c :: l ∧ c.isDigit = true ∧
      (n = 0 → c = '0') ∧ (0 < n → c ≠ '0') := by
  unfold natChars
  by_cases h0 : n = 0
  · exact ⟨'0', [], by rw [if_pos h0], by decide, fun _ => rfl, by omega⟩
  · rw [if_neg h0]
    obtain ⟨c, l, hcl, hdig, hne⟩ :=
      natCharsAux_head n n (Nat.pos_of_ne_zero h0) le_rfl
    exact ⟨c, l, hcl, hdig, fun h => absurd h h0, fun _ => hne⟩

lemma rest_takeWhile_digit {rest : List Char} (hrest : numBoundary rest) :
    rest.takeWhile Char.isDigit = [] ∧ rest.dropWhile Char.isDigit = rest := by
  cases rest with
  | nil => simp
  | cons r rs =>
      obtain ⟨hr, _, _, _⟩ := hrest
      simp [List.takeWhile_cons, List.dropWhile_cons, hr]

lemma parseIntPart_natChars (n : Nat) (rest : List Char)
    (hrest : numBoundary rest) :
    parseIntPart (natChars n ++ rest) = some (n, rest) := by
  by_cases h0 : n = 0
  · subst h0
    show parseIntPart ('0' :: rest) = some (0, rest)
    simp [parseIntPart]
  · obtain ⟨c, l, hcl, hdig, _, hpos⟩ := natChars_head n
    have hne0 : c ≠ '0' := hpos (Nat.pos_of_ne_zero h0)
    have hall : ∀ d ∈ l, d.isDigit = true := by
      intro d hd
      exact natChars_all_digit n d (by rw [hcl]; simp [hd])
    have hb := rest_takeWhile_digit hrest
    have htw := takeWhile_append_all Char.isDigit l rest hall
    rw [hcl, List.cons_append]
    simp only [parseIntPart]
    rw [if_neg hne0, if_pos hdig, htw.1, htw.2, hb.1, hb.2, List.append_nil]
    have hval : digitsToNat (c :: l) = n := by
      rw [← hcl]
      exact natChars_val n
    rw [hval]

lemma parseNumBody_natChars (neg : Bool) (n : Nat) (rest : List Char)
    (hrest : numBoundary rest) :
    parseNumBody neg (natChars n ++ rest) =
      some (Json.int (if neg then -(n : Int) else (n : Int)), rest) := by
  have hfrac : parseFracPart rest = some (false, rest) := by
    cases rest with
    | nil => simp [parseFracPart]
    | cons r rs =>
        obtain ⟨_, hdot, _, _⟩ := hrest
        simp only [parseFracPart]
        rw [if_neg hdot]
  have hexp : parseExpPart rest = some (false, rest) := by
    cases rest with
    | nil => simp [parseExpPart]
    | cons r rs =>
        obtain ⟨_, _, he, hE⟩ := hrest
        simp only [parseExpPart]
        rw [if_neg (by simp [he, hE])]
  unfold parseNumBody
  rw [parseIntPart_natChars n rest hrest]
  simp [hfrac, hexp]

lemma parseNumber_intChars (x : Int) (rest : List Char)
    (hrest : numBoundary rest) :
    parseNumber (intChars x ++ rest) = some (Json.int x, rest) := by
  unfold intChars
  by_cases hneg : x < 0
  · rw [if_pos hneg, List.cons_append]
    simp only [parseNumber, if_pos rfl]
    rw [parseNumBody_natChars true x.natAbs rest hrest]
    have habs : ((x.natAbs : Int)) = -x :=
      Int.ofNat_natAbs_of_nonpos (le_of_lt hneg)
    simp [habs]
  · rw [if_neg hneg]
    obtain ⟨c, l, hcl, hdig, _, _⟩ := natChars_head x.toNat
    rw [hcl, List.cons_append]
    simp only [parseNumber]
    rw [if_neg (ne_of_isDigit hdig (by decide))]
    rw [← List.cons_append, ← hcl]
    rw [parseNumBody_natChars false x.toNat rest hrest]
    have : ((x.toNat : Int)) = x := Int.toNat_of_nonneg (not_lt.mp hneg)
    simp [this]

lemma skipWs_cons_ws {c : Char} (h : isWs c = true) (cs : List Char) :
    skipWs (c :: cs) = skipWs cs := by
  simp [skipWs, h]

lemma skipWs_cons_not {c : Char} (h : isWs c = false) (cs : List Char) :
    skipWs (c :: cs) = c :: cs := by
  simp [skipWs, h]

lemma parseStrBody_quote (acc cs : List Char) :
    parseStrBody acc ('"' :: cs) = some (String.mk acc.reverse, cs) := by
  rw [parseStrBody.eq_def]
  simp

lemma parseStrBody_plain_cons (acc : List Char) (c : Char) (h1 : c ≠ '"')
    (h2 : c ≠ '\\') (h3 : ¬ c.toNat < 32) (cs : List Char) :
    parseStrBody acc (c :: cs) = parseStrBody (c :: acc) cs := by
  rw [parseStrBody.eq_def]
  dsimp only
  rw [if_neg h1, if_neg h2, if_neg h3]

lemma parseValue_skip_ws (f : Nat) (c : Char) (h : isWs c = true)
    (cs : List Char) :
    parseValue (f + 1) (c :: cs) = parseValue (f + 1) cs := by
  rw [parseValue, parseValue, skipWs_cons_ws h]

lemma parseValue_cons_number (f : Nat) (x : Int) (rest : List Char)
    (hrest : numBoundary rest) :
    parseValue (f + 1) (intChars x ++ rest) = some (Json.int x, rest) := by
  have hhead : ∃ c l, intChars x = c :: l ∧ (c = '-' ∨ c.isDigit = true) := by
    unfold intChars
    by_cases hneg : x < 0
    · exact ⟨'-', _, by rw [if_pos hneg], Or.inl rfl⟩
    · obtain ⟨c, l, hcl, hdig, _, _⟩ := natChars_head x.toNat
      exact ⟨c, l, by rw [if_neg hneg, hcl], Or.inr hdig⟩
  obtain ⟨c, l, hcl, hc⟩ := hhead
  have hnotws : isWs c = false := by
    rcases hc with rfl | hdig
    · decide
    · exact isWs_false_of_isDigit hdig
  have hne : c ≠ '\x7b' ∧ c ≠ '[' ∧ c ≠ '"' ∧ c ≠ 't' ∧ c ≠ 'f' ∧ c ≠ 'n' := by
    rcases hc with rfl | hdig
    · refine ⟨by decide, by decide, by decide, by decide, by decide, by decide⟩
    · exact ⟨ne_of_isDigit hdig (by decide), ne_of_isDigit hdig (by decide),
        ne_of_isDigit hdig (by decide), ne_of_isDigit hdig (by decide),
        ne_of_isDigit hdig (by decide), ne_of_isDigit hdig (by decide)⟩
  rw [hcl, List.cons_append]
  rw [parseValue]
  rw [skipWs_cons_not hnotws]
  dsimp only
  rw [if_neg hne.1, if_neg hne.2.1, if_neg hne.2.2.1, if_neg hne.2.2.2.1,
    if_neg hne.2.2.2.2.1, if_neg hne.2.2.2.2.2]
  rw [← List.cons_append, ← hcl]
  exact parseNumber_intChars x rest hrest

lemma parseValue_cons_natNumber (f : Nat) (n : Nat) (rest : List Char)
    (hrest : numBoundary rest) :
    parseValue (f + 1) (natChars n ++ rest) =
      some (Json.int (n : Int), rest) := by
  obtain ⟨c, l, hcl, hdig, _, _⟩ := natChars_head n
  have hnotws : isWs c = false := isWs_false_of_isDigit hdig
  rw [hcl, List.cons_append]
  rw [parseValue]
  rw [skipWs_cons_not hnotws]
  dsimp only
  rw [if_neg (ne_of_isDigit hdig (by decide)),
    if_neg (ne_of_isDigit hdig (by decide)),
    if_neg (ne_of_isDigit hdig (by decide)),
    if_neg (ne_of_isDigit hdig (by decide)),
    if_neg (ne_of_isDigit hdig (by decide)),
    if_neg (ne_of_isDigit hdig (by decide))]
  rw [parseNumber]
  rw [if_neg (ne_of_isDigit hdig (by decide))]
  rw [← List.cons_append, ← hcl]
  rw [parseNumBody_natChars false n rest hrest]
  simp

lemma parseValue_true (f : Nat) (rest : List Char) :
    parseValue (f + 1) ('t' :: 'r' :: 'u' :: 'e' :: rest) =
      some (Json.bool true, rest) := by
  rw [parseValue, skipWs_cons_not (by decide)]
  simp

lemma parseValue_false (f : Nat) (rest : List Char) :
    parseValue (f + 1) ('f' :: 'a' :: 'l' :: 's' :: 'e' :: rest) =
      some (Json.bool false, rest) := by
  rw [parseValue, skipWs_cons_not (by decide)]
  simp

lemma parseMembers_step_comma (f : Nat) (cs body r : List Char)
    (key : String) (v : Json) (acc : List (String × Json))
    (hkey : parseStrBody [] cs = some (key, ':' :: ' ' :: body))
    (hval : parseValue f (' ' :: body) = some (v, ',' :: r)) :
    parseMembers (f + 1) ('"' :: cs) acc =
      parseMembers f (skipWs r) ((key, v) :: acc) := by
  rw [parseMembers]
  rw [hkey]
  dsimp only
  rw [skipWs_cons_not (by decide)]
  simp only [hval]
  rw [skipWs_cons_not (by decide)]
  rfl

lemma parseMembers_step_close (f : Nat) (cs body : List Char) (key : String)
    (v : Json) (acc : List (String × Json))
    (hkey : parseStrBody [] cs = some (key, ':' :: ' ' :: body))
    (hval : parseValue f (' ' :: body) = some (v, '\n' :: '\x7d' :: [])) :
    parseMembers (f + 1) ('"' :: cs) acc =
      some (((key, v) :: acc).reverse, []) := by
  rw [parseMembers]
  rw [hkey]
  dsimp only
  rw [skipWs_cons_not (by decide)]
  simp only [hval]
  rw [skipWs_cons_ws (by decide), skipWs_cons_not (by decide)]
  rfl

lemma toPrettyJson_data (g : WindowState) :
    (WindowState.toPrettyJson g).data =
      '\x7b' :: '\n' :: ' ' :: ' ' :: '"' :: 'x' :: '"' :: ':' :: ' ' ::
        (intChars g.x ++ (',' :: '\n' :: ' ' :: ' ' :: '"' :: 'y' :: '"' ::
          ':' :: ' ' :: (intChars g.y ++ (',' :: '\n' :: ' ' :: ' ' :: '"' ::
            'w' :: 'i' :: 'd' :: 't' :: 'h' :: '"' :: ':' :: ' ' ::
              (natChars g.width ++ (',' :: '\n' :: ' ' :: ' ' :: '"' ::
                'h' :: 'e' :: 'i' :: 'g' :: 'h' :: 't' :: '"' :: ':' :: ' ' ::
                  (natChars g.height ++ (',' :: '\n' :: ' ' :: ' ' :: '"' ::
                    'm' :: 'a' :: 'x' :: 'i' :: 'm' :: 'i' :: 'z' :: 'e' ::
                      'd' :: '"' :: ':' :: ' ' ::
                      ((if g.maximized then "true".data else "false".data) ++
                        ('\n' :: '\x7d' :: [])))))))))) := by
  simp only [WindowState.toPrettyJson, List.append_assoc]
  rfl

lemma parseValue_pretty (f : Nat) (g : WindowState) :
    parseValue (f + 7) (WindowState.toPrettyJson g).data =
      some (Json.obj [("x", Json.int g.x), ("y", Json.int g.y),
        ("width", Json.int (g.width : Int)),
        ("height", Json.int (g.height : Int)),
        ("maximized", Json.bool g.maximized)], []) := by
  have hbComma : ∀ (r : List Char), numBoundary (',' :: r) :=
    fun r => ⟨by decide, by decide, by decide, by decide⟩
  have k1 : ∀ (r : List Char),
      parseStrBody [] ('x' :: '"' :: r) = some ("x", r) := by
    intro r
    rw [parseStrBody_plain_cons _ _ (by decide) (by decide) (by decide),
      parseStrBody_quote]
    rfl
  have k2 : ∀ (r : List Char),
      parseStrBody [] ('y' :: '"' :: r) = some ("y", r) := by
    intro r
    rw [parseStrBody_plain_cons _ _ (by decide) (by decide) (by decide),
      parseStrBody_quote]
    rfl
  have k3 : ∀ (r : List Char),
      parseStrBody [] ('w' :: 'i' :: 'd' :: 't' :: 'h' :: '"' :: r) =
        some ("width", r) := by
    intro r
    rw [parseStrBody_plain_cons _ _ (by decide) (by decide) (by decide),
      parseStrBody_plain_cons _ _ (by decide) (by decide) (by decide),
      parseStrBody_plain_cons _ _ (by decide) (by decide) (by decide),
      parseStrBody_plain_cons _ _ (by decide) (by decide) (by decide),
      parseStrBody_plain_cons _ _ (by decide) (by decide) (by decide),
      parseStrBody_quote]
    rfl
  have k4 : ∀ (r : List Char),
      parseStrBody [] ('h' :: 'e' :: 'i' :: 'g' :: 'h' :: 't' :: '"' :: r) =
        some ("height", r) := by
    intro r
    rw [parseStrBody_plain_cons _ _ (by decide) (by decide) (by decide),
      parseStrBody_plain_cons _ _ (by decide) (by decide) (by decide),
      parseStrBody_plain_cons _ _ (by decide) (by decide) (by decide),
      parseStrBody_plain_cons _ _ (by decide) (by decide) (by decide),
      parseStrBody_plain_cons _ _ (by decide) (by decide) (by decide),
      parseStrBody_plain_cons _ _ (by decide) (by decide) (by decide),
      parseStrBody_quote]
    rfl
  have k5 : ∀ (r : List Char),
      parseStrBody []
          ('m' :: 'a' :: 'x' :: 'i' :: 'm' :: 'i' :: 'z' :: 'e' :: 'd' ::
            '"' :: r) = some ("maximized", r) := by
    intro r
    rw [parseStrBody_plain_cons _ _ (by decide) (by decide) (by decide),
      parseStrBody_plain_cons _ _ (by decide) (by decide) (by decide),
      parseStrBody_plain_cons _ _ (by decide) (by decide) (by decide),
      parseStrBody_plain_cons _ _ (by decide) (by decide) (by decide),
      parseStrBody_plain_cons _ _ (by decide) (by decide) (by decide),
      parseStrBody_plain_cons _ _ (by decide) (by decide) (by decide),
      parseStrBody_plain_cons _ _ (by decide) (by decide) (by decide),
      parseStrBody_plain_cons _ _ (by decide) (by decide) (by decide),
      parseStrBody_plain_cons _ _ (by decide) (by decide) (by decide),
      parseStrBody_quote]
    rfl
  have hval1 : ∀ (r : List Char),
      parseValue (f + 5) (' ' :: (intChars g.x ++ (',' :: r))) =
        some (Json.int g.x, ',' :: r) := by
    intro r
    rw [parseValue_skip_ws _ _ (by decide)]
    exact parseValue_cons_number _ g.x _ (hbComma r)
  have hval2 : ∀ (r : List Char),
      parseValue (f + 4) (' ' :: (intChars g.y ++ (',' :: r))) =
        some (Json.int g.y, ',' :: r) := by
    intro r
    rw [parseValue_skip_ws _ _ (by decide)]
    exact parseValue_cons_number _ g.y _ (hbComma r)
  have hval3 : ∀ (r : List Char),
      parseValue (f + 3) (' ' :: (natChars g.width ++ (',' :: r))) =
        some (Json.int (g.width : Int), ',' :: r) := by
    intro r
    rw [parseValue_skip_ws _ _ (by decide)]
    exact parseValue_cons_natNumber _ g.width _ (hbComma r)
  have hval4 : ∀ (r : List Char),
      parseValue (f + 2) (' ' :: (natChars g.height ++ (',' :: r))) =
        some (Json.int (g.height : Int), ',' :: r) := by
    intro r
    rw [parseValue_skip_ws _ _ (by decide)]
    exact parseValue_cons_natNumber _ g.height _ (hbComma r)
  have hval5 :
      parseValue (f + 1)
          (' ' :: ((if g.maximized then "true".data else "false".data) ++
            ('\n' :: '\x7d' :: []))) =
        some (Json.bool g.maximized, '\n' :: '\x7d' :: []) := by
    cases hmax : g.maximized
    · rw [if_neg (by simp)]
      rw [show ("false".data ++ ('\n' :: '\x7d' :: [])) =
        'f' :: 'a' :: 'l' :: 's' :: 'e' :: '\n' :: '\x7d' :: [] from rfl]
      rw [parseValue_skip_ws _ _ (by decide)]
      exact parseValue_false f _
    · rw [if_pos rfl]
      rw [show ("true".data ++ ('\n' :: '\x7d' :: [])) =
        't' :: 'r' :: 'u' :: 'e' :: '\n' :: '\x7d' :: [] from rfl]
      rw [parseValue_skip_ws _ _ (by decide)]
      exact parseValue_true f _
  rw [toPrettyJson_data]
  rw [parseValue]
  rw [skipWs_cons_not (by decide)]
  dsimp only
  rw [if_pos rfl]
  rw [skipWs_cons_ws (by decide), skipWs_cons_ws (by decide),
    skipWs_cons_ws (by decide), skipWs_cons_not (by decide)]
  rw [parseMembers_step_comma _ _ _ _ _ _ _ (k1 _) (hval1 _)]
  rw [skipWs_cons_ws (by decide), skipWs_cons_ws (by decide),
    skipWs_cons_ws (by decide), skipWs_cons_not (by decide)]
  rw [parseMembers_step_comma _ _ _ _ _ _ _ (k2 _) (hval2 _)]
  rw [skipWs_cons_ws (by decide), skipWs_cons_ws (by decide),
    skipWs_cons_ws (by decide), skipWs_cons_not (by decide)]
  rw [parseMembers_step_comma _ _ _ _ _ _ _ (k3 _) (hval3 _)]
  rw [skipWs_cons_ws (by decide), skipWs_cons_ws (by decide),
    skipWs_cons_ws (by decide), skipWs_cons_not (by decide)]
  rw [parseMembers_step_comma _ _ _ _ _ _ _ (k4 _) (hval4 _)]
  rw [skipWs_cons_ws (by decide), skipWs_cons_ws (by decide),
    skipWs_cons_ws (by decide), skipWs_cons_not (by decide)]
  rw [parseMembers_step_close _ _ _ _ _ _ (k5 _) hval5]
  rfl

lemma ofJson_obj (fields : List (String × Json)) :
    WindowState.ofJson (Json.obj fields) =
      (decodeFields fields {}).bind fun p =>
        match p.x?, p.y?, p.width?, p.height?, p.maximized? with
        | some x, some y, some w, some h, some m => some ⟨x, y, w, h, m⟩
        | _, _, _, _, _ => none := by
  unfold WindowState.ofJson
  cases hd : decodeFields fields {} <;> simp [hd]

lemma decodeI32_int (n : Int) (h1 : -(2 ^ 31) ≤ n) (h2 : n < 2 ^ 31) :
    decodeI32 (Json.int n) = some n := by
  simp only [decodeI32]
  rw [if_pos ⟨h1, h2⟩]

lemma decodeU32_int (n : Nat) (h : ((n : Int)) < 2 ^ 32) :
    decodeU32 (Json.int (n : Int)) = some n := by
  simp only [decodeU32]
  rw [if_pos ⟨Int.natCast_nonneg n, h⟩]
  simp

lemma ofJson_fields (x y : Int) (w h : Nat) (m : Bool)
    (hx1 : -(2 ^ 31) ≤ x) (hx2 : x < 2 ^ 31)
    (hy1 : -(2 ^ 31) ≤ y) (hy2 : y < 2 ^ 31)
    (hw : ((w : Int)) < 2 ^ 32) (hh : ((h : Int)) < 2 ^ 32) :
    WindowState.ofJson (Json.obj [("x", Json.int x), ("y", Json.int y),
      ("width", Json.int (w : Int)), ("height", Json.int (h : Int)),
      ("maximized", Json.bool m)]) = some ⟨x, y, w, h, m⟩ := by
  rw [ofJson_obj]
  rw [decodeFields]
  rw [if_pos rfl]
  rw [decodeI32_int x hx1 hx2]
  dsimp only
  rw [decodeFields]
  rw [if_neg (by decide), if_pos rfl]
  rw [decodeI32_int y hy1 hy2]
  dsimp only
  rw [decodeFields]
  rw [if_neg (by decide), if_neg (by decide), if_pos rfl]
  rw [decodeU32_int w hw]
  dsimp only
  rw [decodeFields]
  rw [if_neg (by decide), if_neg (by decide), if_neg (by decide), if_pos rfl]
  rw [decodeU32_int h hh]
  dsimp only
  rw [decodeFields]
  rw [if_neg (by decide), if_neg (by decide), if_neg (by decide),
    if_neg (by decide), if_pos rfl]
  rw [show decodeBool (Json.bool m) = some m from rfl]
  dsimp only
  rw [decodeFields]
  rw [Option.some_bind]

lemma decodeFields_key_origin :
    ∀ (fields : List (String × Json)) (acc p : PartialState),
      decodeFields fields acc = some p →
      (p.x? ≠ none → acc.x? ≠ none ∨ "x" ∈ fields.map Prod.fst) ∧
      (p.y? ≠ none → acc.y? ≠ none ∨ "y" ∈ fields.map Prod.fst) ∧
      (p.width? ≠ none → acc.width? ≠ none ∨ "width" ∈ fields.map Prod.fst) ∧
      (p.height? ≠ none → acc.height? ≠ none ∨
        "height" ∈ fields.map Prod.fst) ∧
      (p.maximized? ≠ none → acc.maximized? ≠ none ∨
        "maximized" ∈ fields.map Prod.fst) := by
  intro fields
  induction fields with
  | nil =>
      intro acc p h
      simp only [decodeFields, Option.some_inj] at h
      subst h
      simp
  | cons hd tl ih =>
      intro acc p h
      obtain ⟨key, w⟩ := hd
      by_cases e1 : key = "x"
      · simp only [decodeFields, e1, if_pos] at h
        cases hx : acc.x? with
        | some _ => rw [hx] at h; cases decodeI32 w <;> simp at h
        | none =>
            rw [hx] at h
            cases hw : decodeI32 w with
            | none => rw [hw] at h; simp at h
            | some n =>
                rw [hw] at h
                have ihc := ih _ p h
                exact ⟨fun _ => Or.inr (by simp [e1]),
                  fun hp => (ihc.2.1 hp).imp id (List.mem_cons_of_mem _),
                  fun hp => (ihc.2.2.1 hp).imp id (List.mem_cons_of_mem _),
                  fun hp => (ihc.2.2.2.1 hp).imp id (List.mem_cons_of_mem _),
                  fun hp => (ihc.2.2.2.2 hp).imp id (List.mem_cons_of_mem _)⟩
      · by_cases e2 : key = "y"
        · simp only [decodeFields, e2, if_pos] at h
          rw [if_neg (by simp)] at h
          cases hx : acc.y? with
          | some _ => rw [hx] at h; cases decodeI32 w <;> simp at h
          | none =>
              rw [hx] at h
              cases hw : decodeI32 w with
              | none => rw [hw] at h; simp at h
              | some n =>
                  rw [hw] at h
                  have ihc := ih _ p h
                  exact ⟨fun hp => (ihc.1 hp).imp id (List.mem_cons_of_mem _),
                    fun _ => Or.inr (by simp [e2]),
                    fun hp => (ihc.2.2.1 hp).imp id (List.mem_cons_of_mem _),
                    fun hp => (ihc.2.2.2.1 hp).imp id (List.mem_cons_of_mem _),
                    fun hp => (ihc.2.2.2.2 hp).imp id (List.mem_cons_of_mem _)⟩
        · by_cases e3 : key = "width"
          · simp only [decodeFields, e3, if_pos] at h
            rw [if_neg (by simp), if_neg (by simp)] at h
            cases hx : acc.width? with
            | some _ => rw [hx] at h; cases decodeU32 w <;> simp at h
            | none =>
                rw [hx] at h
                cases hw : decodeU32 w with
                | none => rw [hw] at h; simp at h
                | some n =>
                    rw [hw] at h
                    have ihc := ih _ p h
                    exact ⟨fun hp => (ihc.1 hp).imp id (List.mem_cons_of_mem _),
                      fun hp => (ihc.2.1 hp).imp id (List.mem_cons_of_mem _),
                      fun _ => Or.inr (by simp [e3]),
                      fun hp => (ihc.2.2.2.1 hp).imp id (List.mem_cons_of_mem _),
                      fun hp => (ihc.2.2.2.2 hp).imp id (List.mem_cons_of_mem _)⟩
          · by_cases e4 : key = "height"
            · simp only [decodeFields, e4, if_pos] at h
              rw [if_neg (by simp), if_neg (by simp), if_neg (by simp)] at h
              cases hx : acc.height? with
              | some _ => rw [hx] at h; cases decodeU32 w <;> simp at h
              | none =>
                  rw [hx] at h
                  cases hw : decodeU32 w with
                  | none => rw [hw] at h; simp at h
                  | some n =>
                      rw [hw] at h
                      have ihc := ih _ p h
                      exact ⟨fun hp => (ihc.1 hp).imp id (List.mem_cons_of_mem _),
                        fun hp => (ihc.2.1 hp).imp id (List.mem_cons_of_mem _),
                        fun hp => (ihc.2.2.1 hp).imp id (List.mem_cons_of_mem _),
                        fun _ => Or.inr (by simp [e4]),
                        fun hp => (ihc.2.2.2.2 hp).imp id (List.mem_cons_of_mem _)⟩
            · by_cases e5 : key = "maximized"
              · simp only [decodeFields, e5, if_pos] at h
                rw [if_neg (by simp), if_neg (by simp), if_neg (by simp),
                  if_neg (by simp)] at h
                cases hx : acc.maximized? with
                | some _ => rw [hx] at h; cases decodeBool w <;> simp at h
                | none =>
                    rw [hx] at h
                    cases hw : decodeBool w with
                    | none => rw [hw] at h; simp at h
                    | some b =>
                        rw [hw] at h
                        have ihc := ih _ p h
                        exact ⟨fun hp => (ihc.1 hp).imp id (List.mem_cons_of_mem _),
                          fun hp => (ihc.2.1 hp).imp id (List.mem_cons_of_mem _),
                          fun hp => (ihc.2.2.1 hp).imp id (List.mem_cons_of_mem _),
                          fun hp => (ihc.2.2.2.1 hp).imp id (List.mem_cons_of_mem _),
                          fun _ => Or.inr (by simp [e5])⟩
              · simp only [decodeFields] at h
                rw [if_neg e1, if_neg e2, if_neg e3, if_neg e4, if_neg e5] at h
                have ihc := ih _ p h
                exact ⟨fun hp => (ihc.1 hp).imp id (List.mem_cons_of_mem _),
                  fun hp => (ihc.2.1 hp).imp id (List.mem_cons_of_mem _),
                  fun hp => (ihc.2.2.1 hp).imp id (List.mem_cons_of_mem _),
                  fun hp => (ihc.2.2.2.1 hp).imp id (List.mem_cons_of_mem _),
                  fun hp => (ihc.2.2.2.2 hp).imp id (List.mem_cons_of_mem _)⟩

end Wrapper

namespace Wrapper

lemma ofJson_keys (fields : List (String × Json)) (g : WindowState)
    (h : WindowState.ofJson (Json.obj fields) = some g) :
    ∀ k ∈ knownKeys, k ∈ fields.map Prod.fst := by
  rw [ofJson_obj] at h
  cases hd : decodeFields fields {} with
  | none => rw [hd] at h; simp at h
  | some p =>
      rw [hd, Option.some_bind] at h
      have horig := decodeFields_key_origin fields {} p hd
      obtain ⟨px, py, pw, ph, pm⟩ := p
      cases px with
      | none => simp at h
      | some xv =>
      cases py with
      | none => simp at h
      | some yv =>
      cases pw with
      | none => simp at h
      | some wv =>
      cases ph with
      | none => simp at h
      | some hv =>
      cases pm with
      | none => simp at h
      | some mv =>
      intro k hk
      simp only [knownKeys, List.mem_cons, List.not_mem_nil, or_false] at hk
      rcases hk with rfl | rfl | rfl | rfl | rfl
      · exact (horig.1 (by simp)).resolve_left (by simp)
      · exact (horig.2.1 (by simp)).resolve_left (by simp)
      · exact (horig.2.2.1 (by simp)).resolve_left (by simp)
      · exact (horig.2.2.2.1 (by simp)).resolve_left (by simp)
      · exact (horig.2.2.2.2 (by simp)).resolve_left (by simp)

lemma decodeFields_ignore_unknown (k : String) (v : Json) (hk : k ∉ knownKeys) :
    ∀ (pre post : List (String × Json)) (acc : PartialState),
      decodeFields (pre ++ (k, v) :: post) acc =
        decodeFields (pre ++ post) acc := by
  have hks : k ≠ "x" ∧ k ≠ "y" ∧ k ≠ "width" ∧ k ≠ "height" ∧
      k ≠ "maximized" := by
    simpa [knownKeys] using hk
  obtain ⟨h1, h2, h3, h4, h5⟩ := hks
  intro pre
  induction pre with
  | nil =>
      intro post acc
      simp [decodeFields, h1, h2, h3, h4, h5]
  | cons hd tl ih =>
      intro post acc
      obtain ⟨key, w⟩ := hd
      by_cases e1 : key = "x"
      · simp only [List.cons_append, decodeFields, e1, if_pos]
        cases acc.x? <;> cases decodeI32 w <;> simp [ih]
      · by_cases e2 : key = "y"
        · simp only [List.cons_append, decodeFields, e1, e2, if_neg, if_pos]
          cases acc.y? <;> cases decodeI32 w <;> simp [e1, ih]
        · by_cases e3 : key = "width"
          · simp only [List.cons_append, decodeFields]
            rw [if_neg e1, if_neg e2, if_pos e3, if_neg e1, if_neg e2,
              if_pos e3]
            cases acc.width? <;> cases decodeU32 w <;> simp [ih]
          · by_cases e4 : key = "height"
            · simp only [List.cons_append, decodeFields]
              rw [if_neg e1, if_neg e2, if_neg e3, if_pos e4, if_neg e1,
                if_neg e2, if_neg e3, if_pos e4]
              cases acc.height? <;> cases decodeU32 w <;> simp [ih]
            · by_cases e5 : key = "maximized"
              · simp only [List.cons_append, decodeFields]
                rw [if_neg e1, if_neg e2, if_neg e3, if_neg e4, if_pos e5,
                  if_neg e1, if_neg e2, if_neg e3, if_neg e4, if_pos e5]
                cases acc.maximized? <;> cases decodeBool w <;> simp [ih]
              · simp only [List.cons_append, decodeFields]
                rw [if_neg e1, if_neg e2, if_neg e3, if_neg e4, if_neg e5,
                  if_neg e1, if_neg e2, if_neg e3, if_neg e4, if_neg e5]
                exact ih post acc

lemma instance_mode_first : instance_mode "first" = some "first" := by decide

lemma sibling_pids_ne_ourPid (env : SysEnv) :
    ∀ p ∈ sibling_pids env, p ≠ env.ourPid := by
  intro p hp
  unfold sibling_pids at hp
  split at hp
  · simp at hp
  · split at hp
    · simp at hp
    · simp only [List.mem_map, List.mem_filter] at hp
      obtain ⟨e, ⟨_, he⟩, rfl⟩ := hp
      simp only [Bool.and_eq_true, bne_iff_ne, ne_eq] at he
      exact he.2

lemma sibling_pids_nodup (env : SysEnv) (entries : List ProcEntry)
    (hsnap : env.snapshot = some entries)
    (hnd : (entries.map ProcEntry.pid).Nodup) :
    (sibling_pids env).Nodup := by
  unfold sibling_pids
  split
  · exact List.nodup_nil
  · rw [hsnap]
    exact hnd.sublist ((List.filter_sublist entries).map ProcEntry.pid)

/-! ## The claims -/

/-- C1: `restore_window_state` with a present saved geometry `g` and cascade
offset `c` applies the saved size if and only if both dimensions are at
least 200, always applies position `(g.x + c, g.y + c)` regardless of size
validity, and — when `g.maximized` — maximizes last, after position and
size.  With no saved record and `c > 0`, the current position is read and
re-applied offset by `c` on both axes. -/
theorem restore_window_state_spec (w : Window) (g : WindowState) (c : Int) :
    (WinOp.setSize g.width g.height ∈ restore_window_state w (some g) c ↔
      200 ≤ g.width ∧ 200 ≤ g.height) ∧
    WinOp.setPos (g.x + c) (g.y + c) ∈ restore_window_state w (some g) c ∧
    (WinOp.maximize ∈ restore_window_state w (some g) c ↔
      g.maximized = true) ∧
    (g.maximized = true →
      (restore_window_state w (some g) c).getLast? = some WinOp.maximize) ∧
    (∀ px py, w.outerPosition = some (px, py) → 0 < c →
      restore_window_state w none c = [WinOp.setPos (px + c) (py + c)]) := by
  refine ⟨?_, ?_, ?_, ?_, ?_⟩
  · by_cases hs : 200 ≤ g.width ∧ 200 ≤ g.height <;>
      by_cases hm : g.maximized <;>
      simp [restore_window_state, hs, hm]
  · by_cases hs : 200 ≤ g.width ∧ 200 ≤ g.height <;>
      by_cases hm : g.maximized <;>
      simp [restore_window_state, hs, hm]
  · by_cases hs : 200 ≤ g.width ∧ 200 ≤ g.height <;>
      by_cases hm : g.maximized <;>
      simp [restore_window_state, hs, hm]
  · intro hm
    by_cases hs : 200 ≤ g.width ∧ 200 ≤ g.height <;>
      simp [restore_window_state, hs, hm]
  · intro px py hpos hc
    simp [restore_window_state, hpos, hc]

theorem restore_window_state_spec_witness :
    (restore_window_state ⟨none, none, some (5, 10), none⟩
        (some ⟨100, 50, 150, 150, true⟩) 32).getLast? =
      some WinOp.maximize ∧
    restore_window_state ⟨none, none, some (5, 10), none⟩ none 32 =
      [WinOp.setPos 37 42] := by
  have h := restore_window_state_spec ⟨none, none, some (5, 10), none⟩
    ⟨100, 50, 150, 150, true⟩ 32
  exact ⟨h.2.2.2.1 rfl, h.2.2.2.2 5 10 rfl (by decide)⟩

/-- C2: one `save_window_state` invocation classifies the window three ways:
minimized leaves the persisted geometry unchanged (no save); maximized with
a stored record keeps the record's rectangle and sets only `maximized`;
maximized with no record synthesizes one from the current outer bounds with
`maximized = true`; otherwise the current outer bounds are persisted with
`maximized = false`. -/
theorem save_window_state_classification (w : Window)
    (stored : Option WindowState) :
    (w.isMinimized.getD false = true →
      save_window_state w stored = none ∧ applyEvent stored w = stored) ∧
    (w.isMinimized.getD false = false → w.isMaximized.getD false = true →
      ∀ g, stored = some g →
        save_window_state w stored = some { g with maximized := true }) ∧
    (w.isMinimized.getD false = false → w.isMaximized.getD false = true →
      stored = none → ∀ px py sw sh,
        w.outerPosition = some (px, py) → w.outerSize = some (sw, sh) →
        save_window_state w stored = some ⟨px, py, sw, sh, true⟩) ∧
    (w.isMinimized.getD false = false → w.isMaximized.getD false = false →
      ∀ px py sw sh,
        w.outerPosition = some (px, py) → w.outerSize = some (sw, sh) →
        save_window_state w stored = some ⟨px, py, sw, sh, false⟩) := by
  refine ⟨?_, ?_, ?_, ?_⟩
  · intro hmin
    simp [save_window_state, applyEvent, hmin]
  · intro hmin hmax g hg
    simp [save_window_state, hmin, hmax, hg]
  · intro hmin hmax hst px py sw sh hp hs
    simp [save_window_state, hmin, hmax, hst, hp, hs]
  · intro hmin hmax px py sw sh hp hs
    simp [save_window_state, hmin, hmax, hp, hs]

theorem save_window_state_classification_witness :
    (save_window_state ⟨some true, none, none, none⟩
        (some ⟨10, 10, 400, 300, false⟩) = none ∧
      applyEvent (some ⟨10, 10, 400, 300, false⟩) ⟨some true, none, none, none⟩ =
        some ⟨10, 10, 400, 300, false⟩) ∧
    save_window_state ⟨some false, some true, some (5, 5), some (800, 600)⟩
        (some ⟨10, 10, 400, 300, false⟩) = some ⟨10, 10, 400, 300, true⟩ ∧
    save_window_state ⟨some false, some false, some (7, 8), some (640, 480)⟩
        none = some ⟨7, 8, 640, 480, false⟩ := by
  have h1 := save_window_state_classification ⟨some true, none, none, none⟩
    (some ⟨10, 10, 400, 300, false⟩)
  have h2 := save_window_state_classification
    ⟨some false, some true, some (5, 5), some (800, 600)⟩
    (some ⟨10, 10, 400, 300, false⟩)
  have h3 := save_window_state_classification
    ⟨some false, some false, some (7, 8), some (640, 480)⟩ none
  exact ⟨h1.1 rfl, h2.2.1 rfl rfl _ rfl,
    h3.2.2.2 rfl rfl 7 8 640 480 rfl rfl⟩

/-- C3: enforcing the First policy with a non-empty sibling set performs
exactly one activation call and exits with code 0 — no window is created —
for every window environment, including one where activation finds no
window; with an empty sibling set it returns without exiting and the cascade
offset under this policy is 0. -/
theorem enforce_first_policy (env : SysEnv) (openOk : Nat → Bool)
    (windows : List TopWindow) :
    (sibling_pids env ≠ [] →
      enforce_single_instance env openOk windows "first" =
        { activations := [sibling_pids env],
          activationActions :=
            activate_process_windows windows (sibling_pids env),
          exitCode := some 0 } ∧
      (run_model env openOk windows "first").windowCreated = false) ∧
    (sibling_pids env = [] →
      enforce_single_instance env openOk windows "first" = {} ∧
      (run_model env openOk windows "first").cascadeOffset = 0) := by
  constructor
  · intro h
    have hne : (sibling_pids env).isEmpty = false := by
      simpa [List.isEmpty_iff] using h
    constructor
    · simp [enforce_single_instance, hne]
    · simp [run_model, instance_mode_first, enforce_single_instance, hne]
  · intro h
    have hne : (sibling_pids env).isEmpty = true := by simp [h]
    constructor
    · simp [enforce_single_instance, hne]
    · simp [run_model, instance_mode_first]

theorem enforce_first_policy_witness :
    (enforce_single_instance
        ⟨100, some "App.exe",
          some [⟨100, "App.exe"⟩, ⟨101, "app.EXE"⟩, ⟨102, "other.exe"⟩]⟩
        (fun _ => true) [] "first" =
      { activations := [[101]], activationActions := [],
        exitCode := some 0 }) ∧
    (run_model ⟨100, some "App.exe", some []⟩ (fun _ => true) []
        "first").cascadeOffset = 0 := by
  have h1 := enforce_first_policy
    ⟨100, some "App.exe",
      some [⟨100, "App.exe"⟩, ⟨101, "app.EXE"⟩, ⟨102, "other.exe"⟩]⟩
    (fun _ => true) []
  have h2 := enforce_first_policy ⟨100, some "App.exe", some []⟩
    (fun _ => true) []
  exact ⟨(h1.1 (by decide)).1, (h2.2 (by decide)).2⟩

/-- C4: enforcing the Last policy with a non-empty sibling set issues
exactly one termination attempt per sibling pid (never the caller's own),
regardless of per-pid open failures, then requests a 200 ms sleep and
returns without exiting. -/
theorem enforce_last_policy (env : SysEnv) (openOk : Nat → Bool)
    (windows : List TopWindow) (hne : sibling_pids env ≠ []) :
    (enforce_single_instance env openOk windows "last").terminations =
      (sibling_pids env).map (fun p => (p, openOk p)) ∧
    ((enforce_single_instance env openOk windows "last").terminations.map
      Prod.fst = sibling_pids env) ∧
    (∀ pr ∈ (enforce_single_instance env openOk windows "last").terminations,
      pr.1 ≠ env.ourPid) ∧
    (∀ entries, env.snapshot = some entries →
      (entries.map ProcEntry.pid).Nodup →
      ∀ p ∈ sibling_pids env,
        ((enforce_single_instance env openOk windows "last").terminations.map
          Prod.fst).count p = 1) ∧
    200 ≤ (enforce_single_instance env openOk windows "last").sleptMs ∧
    (enforce_single_instance env openOk windows "last").exitCode = none := by
  have hempty : (sibling_pids env).isEmpty = false := by
    simpa [List.isEmpty_iff] using hne
  have henf : enforce_single_instance env openOk windows "last" =
      { terminations := (sibling_pids env).map (fun p => (p, openOk p)),
        sleptMs := 200 } := by
    simp [enforce_single_instance, hempty]
  refine ⟨by simp [henf], ?_, ?_, ?_, by simp [henf], by simp [henf]⟩
  · simp [henf, List.map_map, Function.comp_def]
  · intro pr hpr
    rw [henf] at hpr
    simp only [List.mem_map] at hpr
    obtain ⟨p, hp, rfl⟩ := hpr
    exact sibling_pids_ne_ourPid env p hp
  · intro entries hsnap hnd p hp
    have hfst : ((enforce_single_instance env openOk windows
        "last").terminations.map Prod.fst) = sibling_pids env := by
      simp [henf, List.map_map, Function.comp_def]
    rw [hfst]
    exact List.count_eq_one_of_mem (sibling_pids_nodup env entries hsnap hnd)
      hp

theorem enforce_last_policy_witness :
    (enforce_single_instance
        ⟨100, some "App.exe",
          some [⟨100, "App.exe"⟩, ⟨101, "app.EXE"⟩, ⟨102, "other.exe"⟩]⟩
        (fun _ => false) [] "last").terminations = [(101, false)] ∧
    (enforce_single_instance
        ⟨100, some "App.exe",
          some [⟨100, "App.exe"⟩, ⟨101, "app.EXE"⟩, ⟨102, "other.exe"⟩]⟩
        (fun _ => false) [] "last").exitCode = none := by
  have h := enforce_last_policy
    ⟨100, some "App.exe",
      some [⟨100, "App.exe"⟩, ⟨101, "app.EXE"⟩, ⟨102, "other.exe"⟩]⟩
    (fun _ => false) [] (by decide)
  constructor
  · rw [h.1]
    decide
  · exact h.2.2.2.2.2

/-- C5: under the None policy (multi-instance mode) enforcement performs no
action at all — no exit, no activation, no termination — and the cascade
offset is `32 × sibling count`, where the count is the number of snapshot
entries whose executable name matches the caller's case-insensitively,
excluding the caller's own pid, and 0 on snapshot failure. -/
theorem multi_instance_no_enforcement (env : SysEnv) (openOk : Nat → Bool)
    (windows : List TopWindow) (raw : String)
    (hmode : instance_mode raw = none) :
    (run_model env openOk windows raw).enforcement = {} ∧
    (run_model env openOk windows raw).cascadeOffset =
      (count_sibling_instances env : Int) * 32 ∧
    (env.snapshot = none → count_sibling_instances env = 0) ∧
    (∀ entries s, env.snapshot = some entries → env.selfExeName = some s →
      lowerStr s ≠ "" →
      count_sibling_instances env =
        (entries.filter fun e =>
          lowerStr e.exeName == lowerStr s && e.pid != env.ourPid).length) := by
  refine ⟨by simp [run_model, hmode], by simp [run_model, hmode], ?_, ?_⟩
  · intro hsnap
    unfold count_sibling_instances sibling_pids
    split
    · simp
    · rw [hsnap]
      simp
  · intro entries s hsnap hself hs
    unfold count_sibling_instances sibling_pids our_exe
    rw [hself, hsnap]
    simp [hs]

theorem multi_instance_no_enforcement_witness :
    (run_model
        ⟨100, some "App.exe",
          some [⟨100, "App.exe"⟩, ⟨101, "app.EXE"⟩, ⟨102, "other.exe"⟩]⟩
        (fun _ => true) [] "").enforcement = {} ∧
    (run_model
        ⟨100, some "App.exe",
          some [⟨100, "App.exe"⟩, ⟨101, "app.EXE"⟩, ⟨102, "other.exe"⟩]⟩
        (fun _ => true) [] "").cascadeOffset = 32 := by
  have h := multi_instance_no_enforcement
    ⟨100, some "App.exe",
      some [⟨100, "App.exe"⟩, ⟨101, "app.EXE"⟩, ⟨102, "other.exe"⟩]⟩
    (fun _ => true) [] "" (by decide)
  refine ⟨h.1, ?_⟩
  rw [h.2.1]
  decide

/-- C6 (counterexample): the claim that every record written with
`maximized = true` describes a previously observed normal rectangle — never
the maximized bounds — is false: a maximized move/resize event with no
previous record synthesizes the record from the maximized window's own
outer bounds, and no normal rectangle was ever observed. -/
theorem maximized_record_normal_rect_cex :
    ¬ (∀ (events : List Window) (g : WindowState),
        runSaves events none = some g → g.maximized = true →
        rectOf g ∈ normalRects events) := by
  intro h
  have := h [⟨some false, some true, some (5, 5), some (800, 600)⟩]
    ⟨5, 5, 800, 600, true⟩ (by decide) rfl
  simp [normalRects, isNormalEvent] at this

/-- C6 (amended): whenever a record with `maximized = true` is written by a
non-minimized maximized event, a pre-existing stored record keeps its
x/y/width/height untouched; with no pre-existing record the fields are
taken from the window's current outer bounds, which at that moment may be
the maximized bounds. -/
theorem maximized_flag_update_rect (w : Window) (g : WindowState)
    (px py : Int) (sw sh : Nat)
    (hmin : w.isMinimized.getD false = false)
    (hmax : w.isMaximized.getD false = true) :
    save_window_state w (some g) = some { g with maximized := true } ∧
    (w.outerPosition = some (px, py) → w.outerSize = some (sw, sh) →
      save_window_state w none = some ⟨px, py, sw, sh, true⟩) := by
  constructor
  · simp [save_window_state, hmin, hmax]
  · intro hp hs
    simp [save_window_state, hmin, hmax, hp, hs]

theorem maximized_flag_update_rect_witness :
    save_window_state ⟨some false, some true, some (5, 5), some (800, 600)⟩
        (some ⟨10, 10, 400, 300, false⟩) = some ⟨10, 10, 400, 300, true⟩ ∧
    save_window_state ⟨some false, some true, some (5, 5), some (800, 600)⟩
        none = some ⟨5, 5, 800, 600, true⟩ := by
  have h := maximized_flag_update_rect
    ⟨some false, some true, some (5, 5), some (800, 600)⟩
    ⟨10, 10, 400, 300, false⟩ 5 5 800 600 rfl rfl
  exact ⟨h.1, h.2 rfl rfl⟩

/-- C7: round-trip of the geometry store — `save(g)` immediately followed by
`load()` returns `g` in every field, for every `g` whose fields are in the
`i32`/`u32` ranges of the Rust struct. -/
theorem window_state_roundtrip (g : WindowState)
    (hx1 : -(2 ^ 31) ≤ g.x) (hx2 : g.x < 2 ^ 31)
    (hy1 : -(2 ^ 31) ≤ g.y) (hy2 : g.y < 2 ^ 31)
    (hw : g.width < 2 ^ 32) (hh : g.height < 2 ^ 32) :
    save_then_load g = some g := by
  obtain ⟨f, hf⟩ : ∃ f, (WindowState.toPrettyJson g).length + 1 = f + 7 := by
    have h9 : 9 ≤ (WindowState.toPrettyJson g).length := by
      have he : (WindowState.toPrettyJson g).length =
          (WindowState.toPrettyJson g).data.length := rfl
      rw [he, toPrettyJson_data]
      simp [List.length_cons]
    exact ⟨(WindowState.toPrettyJson g).length - 6, by omega⟩
  have hw2 : ((g.width : Int)) < 2 ^ 32 := by exact_mod_cast hw
  have hh2 : ((g.height : Int)) < 2 ^ 32 := by exact_mod_cast hh
  unfold save_then_load WindowState.load parseWindowState parseJson
  dsimp only
  rw [hf, parseValue_pretty f g]
  dsimp only
  rw [show skipWs [] = [] from rfl]
  rw [if_pos (by decide), Option.some_bind]
  exact ofJson_fields g.x g.y g.width g.height g.maximized
    hx1 hx2 hy1 hy2 hw2 hh2

theorem window_state_roundtrip_witness :
    save_then_load ⟨100, 50, 300, 300, true⟩ =
      some ⟨100, 50, 300, 300, true⟩ :=
  window_state_roundtrip ⟨100, 50, 300, 300, true⟩ (by decide) (by decide)
    (by decide) (by decide) (by decide) (by decide)

/-- C8 (counterexample): the claim that a stored JSON object with unknown
fields fails the whole parse and is treated as absent is false — the derived
serde deserializer ignores unknown fields, so an object carrying all five
required fields plus an extra one loads successfully. -/
theorem unknown_field_parse_cex :
    WindowState.load (FileOutcome.content
        "\x7b\"x\":1,\"y\":2,\"width\":300,\"height\":300,\"maximized\":false,\"extra\":7\x7d") =
      some ⟨1, 2, 300, 300, false⟩ := by
  decide

/-- C8 (amended): `WindowState::load` folds a missing path, an unreadable
file and malformed content into the same absent result; an object missing
any of the five required fields fails the whole parse, while unknown fields
are ignored (serde's default); `save` is best-effort with no surfaced
error. -/
theorem geometry_load_error_folding :
    (WindowState.load FileOutcome.noPath = none) ∧
    (WindowState.load FileOutcome.readFailure = none) ∧
    (∀ s, parseWindowState s = none →
      WindowState.load (FileOutcome.content s) = none) ∧
    (∀ s, WindowState.load (FileOutcome.content s) = parseWindowState s) ∧
    (∀ fields g, WindowState.ofJson (Json.obj fields) = some g →
      ∀ k ∈ knownKeys, k ∈ fields.map Prod.fst) ∧
    (∀ (k : String) (v : Json), k ∉ knownKeys →
      ∀ (pre post : List (String × Json)) (acc : PartialState),
        decodeFields (pre ++ (k, v) :: post) acc =
          decodeFields (pre ++ post) acc) := by
  refine ⟨rfl, rfl, ?_, fun s => rfl, ofJson_keys, ?_⟩
  · intro s h
    simpa [WindowState.load] using h
  · intro k v hk
    exact decodeFields_ignore_unknown k v hk

theorem geometry_load_error_folding_witness :
    WindowState.load (FileOutcome.content "not json") = none ∧
    decodeFields ([] ++ ("extra", Json.null) :: []) {} =
      decodeFields ([] ++ []) {} := by
  have h := geometry_load_error_folding
  exact ⟨h.2.2.1 "not json" (by decide),
    h.2.2.2.2.2 "extra" Json.null (by decide) [] [] {}⟩

/-- C9: the instance-policy string is recognized case-insensitively —
`"first"` and `"last"` in any letter case select the corresponding
enforcement branch, and any other value (including empty) selects
multi-instance mode with no enforcement action. -/
theorem instance_policy_case_insensitive (raw : String) (env : SysEnv)
    (openOk : Nat → Bool) (windows : List TopWindow) :
    (lowerStr raw = "first" →
      instance_mode raw = some "first" ∧
      (run_model env openOk windows raw).enforcement =
        enforce_single_instance env openOk windows "first") ∧
    (lowerStr raw = "last" →
      instance_mode raw = some "last" ∧
      (run_model env openOk windows raw).enforcement =
        enforce_single_instance env openOk windows "last") ∧
    (lowerStr raw ≠ "first" → lowerStr raw ≠ "last" →
      instance_mode raw = none ∧
      (run_model env openOk windows raw).enforcement = {}) := by
  refine ⟨?_, ?_, ?_⟩
  · intro h
    have hm : instance_mode raw = some "first" := by simp [instance_mode, h]
    exact ⟨hm, by simp [run_model, hm]⟩
  · intro h
    have hm : instance_mode raw = some "last" := by
      simp [instance_mode, h]
    exact ⟨hm, by simp [run_model, hm]⟩
  · intro h1 h2
    have hm : instance_mode raw = none := by simp [instance_mode, h1, h2]
    exact ⟨hm, by simp [run_model, hm]⟩

theorem instance_policy_case_insensitive_witness :
    instance_mode "FIRST" = some "first" ∧
    instance_mode "Last" = some "last" ∧
    instance_mode "off" = none := by
  have h1 := instance_policy_case_insensitive "FIRST"
    ⟨100, some "App.exe", some []⟩ (fun _ => true) []
  have h2 := instance_policy_case_insensitive "Last"
    ⟨100, some "App.exe", some []⟩ (fun _ => true) []
  have h3 := instance_policy_case_insensitive "off"
    ⟨100, some "App.exe", some []⟩ (fun _ => true) []
  exact ⟨(h1.1 (by decide)).1, (h2.2.1 (by decide)).1,
    (h3.2.2 (by decide) (by decide)).1⟩

/-- C10: on non-Windows platforms `enforce_single_instance` is a no-op for
every mode string, `count_sibling_instances` is always 0, and so the cascade
offset is always 0. -/
theorem nonwindows_no_enforcement (mode raw : String) :
    enforce_single_instance_nonwindows mode = {} ∧
    count_sibling_instances_nonwindows = 0 ∧
    cascade_offset_nonwindows raw = 0 := by
  refine ⟨rfl, rfl, ?_⟩
  unfold cascade_offset_nonwindows count_sibling_instances_nonwindows
  split <;> simp

end Wrapper
